import Mathlib

/-!
Formal model of the core of the shadcn-svelte MCP server
(`src/utils/registry.ts` and `src/utils/axios.ts`).

The embedding is shallow: every TypeScript function relevant to the
verified claims is translated into an executable Lean definition.
Effects are made explicit:
  * wall-clock time is passed as a `now : Nat` argument (milliseconds),
  * the mutable `RegistryCache` and the `registryIndex` memo field are
    threaded as explicit state,
  * remote HTTP calls are an oracle function from the request (attempt
    index, or path) to the outcome,
  * `throw` becomes `Except`, JavaScript `T | null` becomes `Option T`.
-/

namespace Shadcn

/-- Boolean test that `pat` occurs at the start of a character list
(used to implement the JavaScript `String.prototype.includes` test). -/
def listStarts : List Char → List Char → Bool
  | [], _ => true
  | _ :: _, [] => false
  | p :: ps, c :: cs => p == c && listStarts ps cs

/-- Boolean test that `pat` occurs somewhere inside a character list. -/
def listInfix (pat : List Char) : List Char → Bool
  | [] => listStarts pat []
  | c :: cs => listStarts pat (c :: cs) || listInfix pat cs

/-- Model of the JavaScript `s.includes(pat)` substring test. -/
def strIncludes (s pat : String) : Bool := listInfix pat.toList s.toList

/-- Model of the JavaScript `s.split(sep).length` for a one-character
separator: the number of separator occurrences plus one. -/
def jsSplitLen (s : String) (sep : Char) : Nat := 1 + s.toList.count sep

/-- ASCII lowering of one character, as `String.prototype.toLowerCase`
acts on the ASCII component names this server handles. -/
def asciiLower (c : Char) : Char :=
  if 65 ≤ c.toNat ∧ c.toNat ≤ 90 then Char.ofNat (c.toNat + 32) else c

/-- Model of the JavaScript `s.toLowerCase()` on ASCII strings. -/
def jsToLower (s : String) : String := String.mk (s.toList.map asciiLower)

/-- Model of the JavaScript `s.replace(pat, rep)` with a plain-string
pattern: only the first occurrence is replaced (used by
`fetchFileContent` for the registry-path rewrite). -/
def replaceFirstList (pat rep : List Char) : List Char → List Char
  | [] => []
  | c :: cs =>
    if listStarts pat (c :: cs) then rep ++ (c :: cs).drop pat.length
    else c :: replaceFirstList pat rep cs

/-- `replaceFirst s pat rep` models `s.replace(pat, rep)`. -/
def replaceFirst (s pat rep : String) : String :=
  String.mk (replaceFirstList pat.toList rep.toList s.toList)

/-! ## The TTL cache (`RegistryCache` in `registry.ts`)

The JavaScript class holds `Map<string, { data, timestamp }>`; we model
the map as an insertion-ordered association list with unique keys (the
`Map` invariant) and make the `Date.now()` reads explicit arguments. -/

/-- One entry of the `RegistryCache` map: `{ data, timestamp }`. -/
structure CacheEntry (α : Type) where
  data : α
  timestamp : Nat
deriving Repr, DecidableEq

/-- The backing store of `RegistryCache`. -/
abbrev Cache (α : Type) : Type := List (String × CacheEntry α)

/-- `this.cache.get(key)` on the underlying `Map` (no TTL logic). -/
def cacheFind {α : Type} : Cache α → String → Option (CacheEntry α)
  | [], _ => none
  | (k, e) :: rest, key => if k = key then some e else cacheFind rest key

/-- `this.cache.delete(key)` on the underlying `Map`. -/
def cacheErase {α : Type} : Cache α → String → Cache α
  | [], _ => []
  | (k, e) :: rest, key => if k = key then rest else (k, e) :: cacheErase rest key

/-- `RegistryCache.set(key, data)`: stores `{ data, timestamp: Date.now() }`;
a `Map` update keeps the original key position. -/
def cacheSet {α : Type} : Cache α → String → α → Nat → Cache α
  | [], key, v, now => [(key, ⟨v, now⟩)]
  | (k, e) :: rest, key, v, now =>
    if k = key then (k, ⟨v, now⟩) :: rest else (k, e) :: cacheSet rest key v now

/-- The fixed TTL of `RegistryCache`: `1000 * 60 * 60` (one hour). -/
def TTL : Nat := 1000 * 60 * 60

/-- `RegistryCache.get(key)`: a missing entry yields `null`; an entry with
`now - timestamp > TTL` is deleted and yields `null`; otherwise the stored
data is returned.  The pair carries the (possibly mutated) cache.
All values ever stored by this program are JavaScript objects or arrays,
hence truthy, so callers' `if (cached)` tests coincide with `isSome`. -/
def cacheGet {α : Type} (c : Cache α) (key : String) (now : Nat) :
    Option α × Cache α :=
  match cacheFind c key with
  | none => (none, c)
  | some e =>
    if now - e.timestamp > TTL then (none, cacheErase c key)
    else (some e.data, c)

/-! ## The retrying fetcher (`ShadcnSvelteRegistry.fetchWithRetry`) -/

/-- The `error.response` shape inspected by `fetchWithRetry`:
`status`, `data.message` and the `x-ratelimit-reset` header. -/
structure ErrResponse where
  status : Nat
  message : Option String
  ratelimitReset : Option String
deriving Repr, DecidableEq

/-- An error raised by a fetch thunk; `response` is optional
(`error.response?.…` optional chaining). -/
structure FetchError where
  response : Option ErrResponse
deriving Repr, DecidableEq

/-- The rate-limit classification of `fetchWithRetry`:
`error.response?.status === 403 && error.response?.data?.message?.includes('rate limit')`. -/
def isRateLimitError (e : FetchError) : Bool :=
  match e.response with
  | some r =>
    r.status == 403 &&
      (match r.message with
       | some m => strIncludes m "rate limit"
       | none => false)
  | none => false

/-- The not-found classification of `fetchWithRetry`:
`error.response?.status === 404`. -/
def isNotFoundError (e : FetchError) : Bool :=
  match e.response with
  | some r => r.status == 404
  | none => false

/-- The message of the `new Error(...)` thrown on a rate limit. -/
def rateLimitMessage : String :=
  "GitHub API rate limit exceeded. Please set GITHUB_API_KEY environment variable or wait."

/-- What `fetchWithRetry` can throw: either a freshly constructed
`new Error(message)` (the rate-limit case) or the original thunk error
rethrown. -/
inductive RetryError where
  | thrown (message : String)
  | original (e : FetchError)
deriving Repr, DecidableEq

/-- Observable outcome of one `fetchWithRetry` run: its result
(`.ok none` models the `return null` fall-through when the loop ends),
the number of thunk invocations, the list of backoff sleeps actually
performed (in ms, in order), and the `x-ratelimit-reset` value passed to
`console.error` if the rate-limit branch logged one. -/
structure RetryTrace (α : Type) where
  result : Except RetryError (Option α)
  calls : Nat
  sleeps : List Nat
  loggedReset : Option String
deriving Repr

/-- The loop body of `fetchWithRetry`: `i` is the loop counter,
`remaining` the number of iterations the `for` loop still allows
(`retries - i`), `delay` the current backoff delay.  On each failure the
error is classified: rate limit throws a fresh error at once (logging the
reset header when it is present and truthy), 404 rethrows at once, any
other error sleeps `delay` and retries with `delay * 2` unless this was
the last attempt. -/
def fetchRetryGo {α : Type} (fetcher : Nat → Except FetchError α) :
    Nat → Nat → Nat → RetryTrace α
  | _, 0, _ => ⟨.ok none, 0, [], none⟩
  | i, remaining + 1, delay =>
    match fetcher i with
    | .ok v => ⟨.ok (some v), 1, [], none⟩
    | .error e =>
      if isRateLimitError e then
        ⟨.error (.thrown rateLimitMessage), 1, [],
          match e.response with
          | some r =>
            (match r.ratelimitReset with
             | some t => if t = "" then none else some t
             | none => none)
          | none => none⟩
      else if isNotFoundError e then
        ⟨.error (.original e), 1, [], none⟩
      else if remaining == 0 then
        ⟨.error (.original e), 1, [], none⟩
      else
        let t := fetchRetryGo fetcher (i + 1) remaining (delay * 2)
        ⟨t.result, t.calls + 1, delay :: t.sleeps, t.loggedReset⟩

/-- `ShadcnSvelteRegistry.fetchWithRetry(fetcher, retries = 3, delay = 1000)`.
The thunk is modelled as a function of the attempt index (its i-th
invocation yields `fetcher i`). -/
def fetchWithRetry {α : Type} (fetcher : Nat → Except FetchError α)
    (retries : Nat := 3) (delay : Nat := 1000) : RetryTrace α :=
  fetchRetryGo fetcher 0 retries delay

/-! ## The registry (`ShadcnSvelteRegistry` in `registry.ts`)

The class state relevant to the claims is the `RegistryCache` instance
and the `registryIndex` memo field; both are threaded explicitly.  The
remote manifest request made inside `fetchRegistryIndex` is an oracle
from the attempt index to an already-decoded outcome, and per-file
content requests are an oracle from GitHub path and attempt index to the
decoded body. -/

/-- `ComponentFile` of `registry.ts` (`tailwind`/`cssVars` of
`ComponentMetadata` are never populated by any modelled operation and
are omitted). -/
structure ComponentFile where
  path : String
  content : Option String
  type : Option String
  target : Option String
deriving Repr, DecidableEq

/-- `ComponentMetadata` of `registry.ts`. -/
structure ComponentMetadata where
  name : String
  type : String
  files : List ComponentFile
  dependencies : Option (List String)
  registryDependencies : Option (List String)
  description : Option String
deriving Repr, DecidableEq

/-- `RegistryIndex`: a JavaScript object keyed by component name,
modelled as an insertion-ordered association list with unique keys. -/
abbrev RegistryIndex : Type := List (String × ComponentMetadata)

/-- Property lookup `index[name]` on a `RegistryIndex` object. -/
def idxFind : RegistryIndex → String → Option ComponentMetadata
  | [], _ => none
  | (k, m) :: rest, key => if k = key then some m else idxFind rest key

/-- Property assignment `index[name] = meta`: an existing key keeps its
position, a new key is appended (JavaScript object key order). -/
def idxInsert : RegistryIndex → String → ComponentMetadata → RegistryIndex
  | [], key, m => [(key, m)]
  | (k, m0) :: rest, key, m =>
    if k = key then (k, m) :: rest else (k, m0) :: idxInsert rest key m

/-- `Object.keys(index)` (insertion order). -/
def idxKeys (i : RegistryIndex) : List String := i.map Prod.fst

/-- The untyped values stored in the shared `RegistryCache` (`any` in
TypeScript): the registry index, the component-name list, or one
component's metadata. -/
inductive CacheVal where
  | idx (i : RegistryIndex)
  | names (l : List String)
  | comp (c : ComponentMetadata)
deriving Repr, DecidableEq

/-- The unchecked `any` read-back of an index from the cache.  By
construction only `.idx` values are ever stored under the
`registry-index` key, so the other branches are dead; they mirror the
blind TypeScript cast. -/
def CacheVal.asIndex : CacheVal → RegistryIndex
  | .idx i => i
  | _ => []

/-- The unchecked `any` read-back of a name list from the cache. -/
def CacheVal.asNames : CacheVal → List String
  | .names l => l
  | _ => []

/-- The unchecked `any` read-back of component metadata from the cache. -/
def CacheVal.asComp : CacheVal → ComponentMetadata
  | .comp c => c
  | .idx _ => ⟨"", "", [], none, none, none⟩
  | .names _ => ⟨"", "", [], none, none, none⟩

/-- The mutable instance state of `ShadcnSvelteRegistry`:
`private cache = new RegistryCache()` and
`private registryIndex: RegistryIndex | null = null`. -/
structure RegistryState where
  cache : Cache CacheVal
  registryIndex : Option RegistryIndex
deriving Repr, DecidableEq

/-- `SHADCN_SVELTE_COMPONENTS`: the static fallback component list. -/
def SHADCN_SVELTE_COMPONENTS : List String :=
  ["accordion", "alert", "alert-dialog", "aspect-ratio", "avatar",
   "badge", "breadcrumb", "button", "calendar", "card", "carousel",
   "chart", "checkbox", "collapsible", "combobox", "command",
   "context-menu", "data-table", "date-picker", "dialog", "drawer",
   "dropdown-menu", "formsnap", "hover-card", "input", "input-otp",
   "label", "menubar", "navigation-menu", "pagination", "popover",
   "progress", "radio-group", "range-calendar", "resizable",
   "scroll-area", "select", "separator", "sheet", "sidebar", "skeleton",
   "slider", "sonner", "switch", "table", "tabs", "textarea", "toggle",
   "toggle-group", "tooltip", "typography"]

/-- One item of the decoded `registry.json` manifest (`item.name` is
optional to model the `item.name` truthiness test). -/
structure RegistryItem where
  name : Option String
  type : String
  files : Option (List ComponentFile)
  dependencies : Option (List String)
  registryDependencies : Option (List String)
deriving Repr, DecidableEq

/-- Outcome of one manifest request after decoding, as observed by
`fetchRegistryIndex`:
`noContent` models a response whose `response.data.content` chain is
falsy, `parseError` a `JSON.parse` throw on the decoded content, and
`parsed items` a successful parse whose `items` field is the given
optional array (`none` when `registry.items` is missing or not an
array). -/
inductive ManifestResp where
  | noContent
  | parseError
  | parsed (items : Option (List RegistryItem))
deriving Repr, DecidableEq

/-- The `registry.items.forEach` loop of `fetchRegistryIndex`: keep items
whose `type` is `registry:ui` and whose `name` is truthy, building the
index object in iteration order. -/
def indexOfItems (items : List RegistryItem) : RegistryIndex :=
  items.foldl
    (fun idx item =>
      if item.type = "registry:ui" then
        match item.name with
        | some n =>
          if n = "" then idx
          else
            idxInsert idx n
              { name := n
                type := item.type
                files := item.files.getD []
                dependencies := some (item.dependencies.getD [])
                registryDependencies := some (item.registryDependencies.getD [])
                description := some (n ++ " component from shadcn-svelte") }
        | none => idx
      else idx)
    []

/-- Outcome of one `fetchRegistryIndex` call: the returned index, the
instance state afterwards, and whether a remote manifest fetch (the
`fetchWithRetry` call) was performed. -/
structure IndexFetchOutcome where
  index : RegistryIndex
  state : RegistryState
  fetched : Bool
deriving Repr, DecidableEq

/-- `ShadcnSvelteRegistry.fetchRegistryIndex`: return the memoized index
when `this.registryIndex` is truthy; else consult the cache under
`registry-index` (a hit also fills the memo); else fetch the manifest
via `fetchWithRetry` (defaults 3 / 1000).  A successful parse builds the
index, memoizes it, caches it and returns it; every failure path
(thunk error propagated by the retrier, missing content, parse error,
or a null retrier result) falls through to `return {}` without touching
the memo. -/
def fetchRegistryIndex (st : RegistryState) (now : Nat)
    (mOracle : Nat → Except FetchError ManifestResp) : IndexFetchOutcome :=
  match st.registryIndex with
  | some idx => ⟨idx, st, false⟩
  | none =>
    match cacheGet st.cache "registry-index" now with
    | (some cv, cache') => ⟨cv.asIndex, ⟨cache', some cv.asIndex⟩, false⟩
    | (none, cache') =>
      match (fetchWithRetry mOracle 3 1000).result with
      | .ok (some (.parsed items)) =>
        let index : RegistryIndex :=
          match items with
          | some l => indexOfItems l
          | none => []
        ⟨index, ⟨cacheSet cache' "registry-index" (.idx index) now, some index⟩, true⟩
      | _ => ⟨[], ⟨cache', none⟩, true⟩

/-- Outcome of one `getAvailableComponents` call. -/
structure AvailOutcome where
  components : List String
  state : RegistryState
  manifestFetched : Bool
deriving Repr, DecidableEq

/-- `ShadcnSvelteRegistry.getAvailableComponents`: cached list on a hit;
otherwise resolve the index, return its keys when non-empty, else the
static fallback list; either result is cached under `components-list`. -/
def getAvailableComponents (st : RegistryState) (now : Nat)
    (mOracle : Nat → Except FetchError ManifestResp) : AvailOutcome :=
  match cacheGet st.cache "components-list" now with
  | (some cv, cache') => ⟨cv.asNames, ⟨cache', st.registryIndex⟩, false⟩
  | (none, cache') =>
    let o := fetchRegistryIndex ⟨cache', st.registryIndex⟩ now mOracle
    let components := idxKeys o.index
    if components.length > 0 then
      ⟨components,
       ⟨cacheSet o.state.cache "components-list" (.names components) now,
        o.state.registryIndex⟩, o.fetched⟩
    else
      ⟨SHADCN_SVELTE_COMPONENTS,
       ⟨cacheSet o.state.cache "components-list" (.names SHADCN_SVELTE_COMPONENTS) now,
        o.state.registryIndex⟩, o.fetched⟩

/-- `ShadcnSvelteRegistry.fetchFileContent`: rewrite the registry path to
the GitHub docs path (first occurrence only, as `String.replace` with a
string pattern), fetch with retry, and return the decoded body on
success or the empty string on any failure (`catch` swallows errors). -/
def fetchFileContent (filePath : String)
    (fOracle : String → Nat → Except FetchError (Option String)) : String :=
  let githubPath := replaceFirst filePath "src/lib/registry/" "docs/src/lib/registry/"
  match (fetchWithRetry (fOracle githubPath) 3 1000).result with
  | .ok (some (some content)) => content
  | _ => ""

/-- The synthesized fallback metadata of `getComponent` for a name on the
static list: a single contentless file entry. -/
def fallbackMetadata (name : String) : ComponentMetadata :=
  { name := name
    type := "registry:ui"
    files := [⟨"$lib/components/ui/" ++ name, none, some "registry:ui", none⟩]
    dependencies := some []
    registryDependencies := none
    description := some (name ++ " component from shadcn-svelte") }

/-- Outcome of one `getComponent` call. -/
structure CompOutcome where
  result : Option ComponentMetadata
  state : RegistryState
  manifestFetched : Bool
deriving Repr, DecidableEq

/-- `ShadcnSvelteRegistry.getComponent`: cached metadata on a hit under
`component-` + name; else resolve the index; on an index hit fetch every
listed file body individually (a failed body fetch yields an empty
string, not an abort), assemble, cache and return; else when the name is
on the static list synthesize `fallbackMetadata`, cache and return it;
else return null. -/
def getComponent (st : RegistryState) (now : Nat) (name : String)
    (mOracle : Nat → Except FetchError ManifestResp)
    (fOracle : String → Nat → Except FetchError (Option String)) : CompOutcome :=
  let cacheKey := "component-" ++ name
  match cacheGet st.cache cacheKey now with
  | (some cv, cache') => ⟨some cv.asComp, ⟨cache', st.registryIndex⟩, false⟩
  | (none, cache') =>
    let o := fetchRegistryIndex ⟨cache', st.registryIndex⟩ now mOracle
    match idxFind o.index name with
    | some meta =>
      let filesWithContent := meta.files.map
        (fun f => { f with content := some (fetchFileContent f.path fOracle) })
      let complete := { meta with files := filesWithContent }
      ⟨some complete,
       ⟨cacheSet o.state.cache cacheKey (.comp complete) now,
        o.state.registryIndex⟩, o.fetched⟩
    | none =>
      if SHADCN_SVELTE_COMPONENTS.contains name then
        ⟨some (fallbackMetadata name),
         ⟨cacheSet o.state.cache cacheKey (.comp (fallbackMetadata name)) now,
          o.state.registryIndex⟩, o.fetched⟩
      else ⟨none, o.state, o.fetched⟩

/-- Outcome of one `componentExists` call. -/
structure ExistsOutcome where
  result : Bool
  state : RegistryState
  manifestFetched : Bool
deriving Repr, DecidableEq

/-- `ShadcnSvelteRegistry.componentExists`: membership of the lowercased
name in `getAvailableComponents()`. -/
def componentExists (st : RegistryState) (now : Nat) (name : String)
    (mOracle : Nat → Except FetchError ManifestResp) : ExistsOutcome :=
  let o := getAvailableComponents st now mOracle
  ⟨o.components.contains (jsToLower name), o.state, o.manifestFetched⟩

/-- `ShadcnSvelteRegistry.clearCache`: clears the `RegistryCache` map and
nothing else — in particular `registryIndex` is kept. -/
def clearCache (st : RegistryState) : RegistryState := ⟨[], st.registryIndex⟩

/-- A manifest oracle whose response decodes without a content field
(a harmless concrete failure used by witnesses). -/
def mNoContent : Nat → Except FetchError ManifestResp := fun _ => .ok .noContent

/-- A file-content oracle that never yields a body. -/
def fNoBody : String → Nat → Except FetchError (Option String) := fun _ _ => .ok none

/-! ## Call sequences over one registry instance

Used to state the temporal claim about the `registryIndex` memo: an
operation is one public call (with its observation time and remote
oracles), and we count how many of them perform a manifest fetch. -/

/-- One public call on the `ShadcnSvelteRegistry` instance. -/
inductive RegOp where
  | fetchIndex (now : Nat) (m : Nat → Except FetchError ManifestResp)
  | getComp (name : String) (now : Nat)
      (m : Nat → Except FetchError ManifestResp)
      (f : String → Nat → Except FetchError (Option String))
  | getAvail (now : Nat) (m : Nat → Except FetchError ManifestResp)
  | clear

/-- Run one call: the state afterwards and whether it performed a remote
manifest fetch. -/
def opRun (st : RegistryState) : RegOp → RegistryState × Bool
  | .fetchIndex now m =>
    ((fetchRegistryIndex st now m).state, (fetchRegistryIndex st now m).fetched)
  | .getComp name now m f =>
    ((getComponent st now name m f).state, (getComponent st now name m f).manifestFetched)
  | .getAvail now m =>
    ((getAvailableComponents st now m).state, (getAvailableComponents st now m).manifestFetched)
  | .clear => (clearCache st, false)

/-- The number of manifest fetches a call sequence performs. -/
def manifestFetchCount : RegistryState → List RegOp → Nat
  | _, [] => 0
  | st, op :: ops =>
    (if (opRun st op).2 then 1 else 0) + manifestFetchCount (opRun st op).1 ops

/-- The instance state after a call sequence. -/
def runState : RegistryState → List RegOp → RegistryState
  | st, [] => st
  | st, op :: ops => runState (opRun st op).1 ops

/-! ## Helper lemmas -/

/-- After `set(k, v)` at time `t`, the map holds `⟨v, t⟩` under `k`. -/
theorem cacheFind_cacheSet_self {α : Type} (c : Cache α) (k : String) (v : α)
    (t : Nat) : cacheFind (cacheSet c k v t) k = some ⟨v, t⟩ := by
  induction c with
  | nil => simp [cacheSet, cacheFind]
  | cons h rest ih =>
    obtain ⟨k0, e0⟩ := h
    by_cases hk : k0 = k <;> simp [cacheSet, cacheFind, hk, ih]

/-- A key absent from the key list is not found. -/
theorem cacheFind_eq_none_of_not_mem {α : Type} (c : Cache α) (k : String)
    (h : k ∉ c.map Prod.fst) : cacheFind c k = none := by
  induction c with
  | nil => rfl
  | cons hd rest ih =>
    obtain ⟨k0, e0⟩ := hd
    simp only [List.map_cons, List.mem_cons] at h
    push_neg at h
    by_cases hk : k0 = k
    · exact absurd hk.symm h.1
    · simp [cacheFind, hk, ih h.2]

/-- With unique keys, deleting `k` makes `k` unfindable. -/
theorem cacheFind_cacheErase_self {α : Type} (c : Cache α) (k : String)
    (hnodup : (c.map Prod.fst).Nodup) : cacheFind (cacheErase c k) k = none := by
  induction c with
  | nil => rfl
  | cons hd rest ih =>
    obtain ⟨k0, e0⟩ := hd
    simp only [List.map_cons, List.nodup_cons] at hnodup
    by_cases hk : k0 = k
    · subst hk
      simp only [cacheErase, if_pos rfl]
      exact cacheFind_eq_none_of_not_mem rest k0 hnodup.1
    · simp [cacheErase, hk, cacheFind, ih hnodup.2]

/-- When the memo field is set, `fetchRegistryIndex` returns it and does
nothing else. -/
theorem fetchRegistryIndex_memo (st : RegistryState) (now : Nat)
    (m : Nat → Except FetchError ManifestResp) (i : RegistryIndex)
    (h : st.registryIndex = some i) :
    fetchRegistryIndex st now m = ⟨i, st, false⟩ := by
  unfold fetchRegistryIndex
  rw [h]

/-- `getComponent` on the fallback path when the name is absent from the
static list: `null` is returned and the state is the resolver's state. -/
theorem getComponent_miss_none (st : RegistryState) (now : Nat) (name : String)
    (m : Nat → Except FetchError ManifestResp)
    (f : String → Nat → Except FetchError (Option String))
    (hmiss : (cacheGet st.cache ("component-" ++ name) now).1 = none)
    (homit : idxFind (fetchRegistryIndex
        ⟨(cacheGet st.cache ("component-" ++ name) now).2, st.registryIndex⟩ now m).index
        name = none)
    (hstatic : SHADCN_SVELTE_COMPONENTS.contains name = false) :
    (getComponent st now name m f).result = none := by
  unfold getComponent
  dsimp only
  have hp : cacheGet st.cache ("component-" ++ name) now
      = ((cacheGet st.cache ("component-" ++ name) now).1,
         (cacheGet st.cache ("component-" ++ name) now).2) := rfl
  rw [hp, hmiss]
  simp only [homit, hstatic, Bool.false_eq_true, if_false]

/-- `getComponent` on the fallback path when the name is on the static
list: the synthesized metadata is returned and cached. -/
theorem getComponent_miss_fallback (st : RegistryState) (now : Nat) (name : String)
    (m : Nat → Except FetchError ManifestResp)
    (f : String → Nat → Except FetchError (Option String))
    (hmiss : (cacheGet st.cache ("component-" ++ name) now).1 = none)
    (homit : idxFind (fetchRegistryIndex
        ⟨(cacheGet st.cache ("component-" ++ name) now).2, st.registryIndex⟩ now m).index
        name = none)
    (hstatic : SHADCN_SVELTE_COMPONENTS.contains name = true) :
    (getComponent st now name m f).result = some (fallbackMetadata name) ∧
    cacheFind (getComponent st now name m f).state.cache ("component-" ++ name)
      = some ⟨.comp (fallbackMetadata name), now⟩ := by
  unfold getComponent
  dsimp only
  have hp : cacheGet st.cache ("component-" ++ name) now
      = ((cacheGet st.cache ("component-" ++ name) now).1,
         (cacheGet st.cache ("component-" ++ name) now).2) := rfl
  rw [hp, hmiss]
  simp only [homit, hstatic, if_true]
  refine ⟨by trivial, ?_⟩
  exact cacheFind_cacheSet_self _ _ _ _

/-- Every public call on an instance whose memo is already set performs
no manifest fetch and keeps the memo. -/
theorem opRun_memo (st : RegistryState) (i : RegistryIndex) (op : RegOp)
    (h : st.registryIndex = some i) :
    (opRun st op).2 = false ∧ (opRun st op).1.registryIndex = some i := by
  cases op with
  | fetchIndex now m =>
    simp only [opRun, fetchRegistryIndex_memo st now m i h]
    exact ⟨trivial, h⟩
  | getComp name now m f =>
    simp only [opRun]
    unfold getComponent
    dsimp only
    rcases hc : cacheGet st.cache ("component-" ++ name) now with ⟨o, cache2⟩
    cases o with
    | some cv => exact ⟨by trivial, h⟩
    | none =>
      dsimp only
      rw [fetchRegistryIndex_memo ⟨cache2, st.registryIndex⟩ now m i h]
      dsimp only
      cases idxFind i name with
      | some meta => exact ⟨by trivial, h⟩
      | none =>
        by_cases hcon : SHADCN_SVELTE_COMPONENTS.contains name = true
        · simp only [hcon, if_true]
          exact ⟨by trivial, h⟩
        · simp only [hcon, if_false]
          exact ⟨by trivial, h⟩
  | getAvail now m =>
    simp only [opRun]
    unfold getAvailableComponents
    dsimp only
    rcases hc : cacheGet st.cache "components-list" now with ⟨o, cache2⟩
    cases o with
    | some cv => exact ⟨by trivial, h⟩
    | none =>
      dsimp only
      rw [fetchRegistryIndex_memo ⟨cache2, st.registryIndex⟩ now m i h]
      dsimp only
      by_cases hl : (idxKeys i).length > 0
      · simp only [hl, if_true]
        exact ⟨by trivial, h⟩
      · simp only [hl, if_false]
        exact ⟨by trivial, h⟩
  | clear => exact ⟨by trivial, h⟩

/-- A call sequence started with the memo set performs zero manifest
fetches and preserves the memo. -/
theorem manifest_fetch_free (ops : List RegOp) (st : RegistryState)
    (i : RegistryIndex) (h : st.registryIndex = some i) :
    manifestFetchCount st ops = 0 ∧ (runState st ops).registryIndex = some i := by
  induction ops generalizing st with
  | nil => exact ⟨rfl, h⟩
  | cons op ops ih =>
    obtain ⟨h1, h2⟩ := opRun_memo st i op h
    obtain ⟨ih1, ih2⟩ := ih (opRun st op).1 h2
    unfold manifestFetchCount runState
    rw [h1, ih1]
    exact ⟨rfl, ih2⟩

/-! ## The directory tree builder (`src/utils/axios.ts`)

`buildDirectoryTree(owner, repo, path, branch)` recurses over the GitHub
contents API.  Owner, repo and branch are constants threaded through
unchanged, so the remote call is an oracle keyed by the repository path.
The recursion in the source is bounded only by the depth test on the
parent path, so the Lean model carries an explicit recursion guard
(`fuel`); every theorem supplies enough fuel for the scenario at hand. -/

/-- `REPO_OWNER` of `axios.ts`. -/
def REPO_OWNER : String := "huntabyte"

/-- `REPO_NAME` of `axios.ts`. -/
def REPO_NAME : String := "shadcn-svelte"

/-- `REPO_BRANCH` of `axios.ts`. -/
def REPO_BRANCH : String := "main"

/-- The `error.response` shape inspected by the catch block of
`buildDirectoryTree` (`status` and `data.message`). -/
structure JsErrResponse where
  status : Nat
  dataMessage : Option String
deriving Repr, DecidableEq

/-- A JavaScript error as classified by `buildDirectoryTree`: its
`message` and optional `response`.  `new Error(msg)` is `⟨msg, none⟩`. -/
structure JsErr where
  message : String
  response : Option JsErrResponse
deriving Repr, DecidableEq

/-- One item of a GitHub contents listing as consumed by
`buildDirectoryTree` (`type`, `name`, `path`, `download_url`, `sha`). -/
structure GhItem where
  type : String
  name : String
  path : String
  downloadUrl : Option String
  sha : String
deriving Repr, DecidableEq

/-- A decoded GitHub contents response: an array of items, a non-array
object carrying a `message` (error envelope), a non-array single file
descriptor, some other non-array object (serialized for the error
message), or a falsy `response.data`. -/
inductive GhResp where
  | listing (items : List GhItem)
  | objWithMessage (message : String)
  | fileObj (item : GhItem)
  | otherObj (serialized : String)
  | noData
deriving Repr, DecidableEq

/-- The tree nodes `buildDirectoryTree` and `getBasicSvelteStructure`
build: a file node `{ path, type: 'file', name, url, sha }`, or a
directory node with its optional `children` object and the optional
`error` / `note` / `description` / `additional_info` fields actually
used by the source. -/
inductive TreeNode where
  | file (path name : String) (url : Option String) (sha : String)
  | dir (path : String) (children : Option (List (String × TreeNode)))
      (error note description additionalInfo : Option String)

/-- Property assignment into a `children` object: an existing name keeps
its position, a new one is appended. -/
def childInsert : List (String × TreeNode) → String → TreeNode → List (String × TreeNode)
  | [], key, t => [(key, t)]
  | (k, t0) :: rest, key, t =>
    if k = key then (k, t) :: rest else (k, t0) :: childInsert rest key t

/-- The `Path not found` message template of `buildDirectoryTree`. -/
def pathNotFoundMsg (p : String) : String :=
  "Path not found: " ++ p ++ ". The path may not exist in the repository."

/-- The rate-limit message template used for a rate-limited message
envelope inside the try block. -/
def rateLimitEnvelopeMsg (m : String) : String :=
  "GitHub API rate limit exceeded. " ++ m ++
    " Consider setting GITHUB_PERSONAL_ACCESS_TOKEN environment variable for higher rate limits."

/-- The error thrown for a non-array response carrying a `message`
field: rate limit, not found, or generic GitHub API error. -/
def messageEnvelopeError (p m : String) : JsErr :=
  if strIncludes m "rate limit exceeded" then ⟨rateLimitEnvelopeMsg m, none⟩
  else if strIncludes m "Not Found" then ⟨pathNotFoundMsg p, none⟩
  else ⟨"GitHub API error: " ++ m, none⟩

/-- The catch block of `buildDirectoryTree`: a truthy message containing
`rate limit` or `GitHub API error` is rethrown as-is; otherwise an error
with a `response` is mapped by status (404 / 403 / 401 / other) to a
fresh error; anything else is rethrown. -/
def classifyCatch (p : String) (e : JsErr) : JsErr :=
  if (!(e.message == "")) &&
      (strIncludes e.message "rate limit" || strIncludes e.message "GitHub API error") then
    e
  else
    match e.response with
    | some r =>
      let message :=
        match r.dataMessage with
        | some m => if m = "" then "Unknown error" else m
        | none => "Unknown error"
      if r.status == 404 then ⟨pathNotFoundMsg p, none⟩
      else if r.status == 403 then
        if strIncludes message "rate limit" then
          ⟨"GitHub API rate limit exceeded: " ++ message ++
            " Consider setting GITHUB_PERSONAL_ACCESS_TOKEN environment variable for higher rate limits.", none⟩
        else ⟨"Access forbidden: " ++ message, none⟩
      else if r.status == 401 then
        ⟨"Authentication failed. Please check your GITHUB_PERSONAL_ACCESS_TOKEN if provided.", none⟩
      else ⟨"GitHub API error (" ++ toString r.status ++ "): " ++ message, none⟩
    | none => e

/-- The per-item loop of `buildDirectoryTree` over a directory listing,
parameterized by the recursive call: a file item becomes a file child; a
dir item, when the parent path has fewer than 8 segments, is recursed
into — an inner failure is captured as a child carrying
`error: 'Failed to fetch contents'` instead of aborting — and is
silently skipped at the depth limit; other item types are ignored. -/
def buildChildren (recur : String → Except JsErr TreeNode) (p : String) :
    List GhItem → List (String × TreeNode) → List (String × TreeNode)
  | [], acc => acc
  | it :: rest, acc =>
    buildChildren recur p rest
      (if it.type = "file" then
        childInsert acc it.name (.file it.path it.name it.downloadUrl it.sha)
      else if it.type = "dir" then
        if jsSplitLen p '/' < 8 then
          match recur it.path with
          | .ok sub => childInsert acc it.name sub
          | .error _ =>
            childInsert acc it.name
              (.dir it.path none (some "Failed to fetch contents") none none none)
        else acc
      else acc)

/-- `buildDirectoryTree(owner, repo, path, branch)`: request the listing
for `path`; a thrown request error, a falsy body, an error envelope or
an unexpected object raise (through the catch classifier); a single
file descriptor yields a file node; an array yields a directory node
whose children are built by `buildChildren`.  The `fuel` argument is the
model's recursion guard only. -/
def buildDirectoryTree (oracle : String → Except JsErr GhResp) :
    Nat → String → Except JsErr TreeNode
  | 0, _ => .error ⟨"model recursion guard exhausted", none⟩
  | fuel + 1, p =>
    match
      (match oracle p with
       | .error e => .error e
       | .ok .noData => .error ⟨"No data received from GitHub API", none⟩
       | .ok (.objWithMessage m) => .error (messageEnvelopeError p m)
       | .ok (.fileObj it) => .ok (.file it.path it.name it.downloadUrl it.sha)
       | .ok (.otherObj s) =>
         .error ⟨"Unexpected response type from GitHub API: " ++ s, none⟩
       | .ok (.listing items) =>
         .ok (.dir p
           (some (buildChildren (fun q => buildDirectoryTree oracle fuel q) p items []))
           none none none none) : Except JsErr TreeNode)
    with
    | .ok t => .ok t
    | .error e => .error (classifyCatch p e)

/-- `getBasicSvelteStructure()`: the fixed skeleton tree returned when
the rate-limit fallback fires. -/
def getBasicSvelteStructure : TreeNode :=
  .dir "packages"
    (some
      [("cli",
        .dir "packages/cli" none none
          (some "Command-line interface for adding components")
          (some "shadcn-svelte CLI tool") none),
       ("registry",
        .dir "packages/registry" none none
          (some "Registry system for component definitions")
          (some "Component registry and metadata") none)])
    none (some "Basic structure provided due to API limitations") none
    (some "Components are installed to your project at $lib/components/ui/")

/-- `buildDirectoryTreeWithFallback`: delegate to `buildDirectoryTree`;
when it fails with a truthy message mentioning `rate limit`, substitute
the skeleton tree; any other failure is rethrown unchanged. -/
def buildDirectoryTreeWithFallback (oracle : String → Except JsErr GhResp)
    (fuel : Nat) (p : String) : Except JsErr TreeNode :=
  match buildDirectoryTree oracle fuel p with
  | .ok t => .ok t
  | .error e =>
    if (!(e.message == "")) && strIncludes e.message "rate limit" then
      .ok getBasicSvelteStructure
    else .error e

/-- A concrete component-metadata value for counterexample states. -/
def cardMeta : ComponentMetadata :=
  ⟨"card", "registry:ui", [], some [], some [],
   some "card component from shadcn-svelte"⟩

/-- A manifest oracle that parses to an empty item list. -/
def mEmptyManifest : Nat → Except FetchError ManifestResp :=
  fun _ => .ok (.parsed (some []))

/-- A concrete always-rate-limited thunk error (403 with a message that
mentions the rate limit), used by witnesses. -/
def rlThunkErr : FetchError :=
  ⟨some ⟨403, some "API rate limit exceeded for 0.0.0.0.", none⟩⟩

/-- A concrete rate-limit thunk error additionally carrying an
`x-ratelimit-reset` header value. -/
def rlErrReset (t : String) : FetchError :=
  ⟨some ⟨403, some "API rate limit exceeded for 0.0.0.0.", some t⟩⟩

/-- C1: a thunk whose every invocation fails with a rate-limit condition
makes `fetchWithRetry` (default budget 3) call it exactly once, perform
no backoff sleep, and fail with the distinguished rate-limit error. -/
theorem fetchWithRetry_rateLimit_no_retry {α : Type}
    (f : Nat → Except FetchError α) (d : Nat)
    (h : ∀ i, ∃ e, f i = .error e ∧ isRateLimitError e = true) :
    (fetchWithRetry f 3 d).calls = 1 ∧ (fetchWithRetry f 3 d).sleeps = [] ∧
    (fetchWithRetry f 3 d).result = .error (.thrown rateLimitMessage) := by
  obtain ⟨e, he, hrl⟩ := h 0
  unfold fetchWithRetry fetchRetryGo
  rw [he]
  simp [hrl]

/-- Witness for C1 at a concrete always-rate-limited thunk. -/
theorem fetchWithRetry_rateLimit_no_retry_witness :
    (fetchWithRetry (fun _ => (.error rlThunkErr : Except FetchError Nat)) 3 1000).calls = 1 ∧
    (fetchWithRetry (fun _ => (.error rlThunkErr : Except FetchError Nat)) 3 1000).sleeps = [] ∧
    (fetchWithRetry (fun _ => (.error rlThunkErr : Except FetchError Nat)) 3 1000).result
      = .error (.thrown rateLimitMessage) :=
  fetchWithRetry_rateLimit_no_retry _ 1000 (fun _ => ⟨rlThunkErr, rfl, by decide⟩)

/-- C2: with the default budget of 3, a thunk failing transiently twice
then succeeding is called exactly three times, the result is the third
invocation's value, and the backoff sleeps are exactly the initial delay
then its double; a thunk failing transiently on all attempts is called
three times and the last error is propagated. -/
theorem fetchWithRetry_transient_backoff {α : Type}
    (f g : Nat → Except FetchError α) (d : Nat) (v : α)
    (e0 e1 : FetchError) (err : Nat → FetchError)
    (hf0 : f 0 = .error e0) (hf1 : f 1 = .error e1) (hf2 : f 2 = .ok v)
    (ht0 : isRateLimitError e0 = false) (hn0 : isNotFoundError e0 = false)
    (ht1 : isRateLimitError e1 = false) (hn1 : isNotFoundError e1 = false)
    (hg : ∀ i, g i = .error (err i))
    (htg : ∀ i, isRateLimitError (err i) = false)
    (hng : ∀ i, isNotFoundError (err i) = false) :
    ((fetchWithRetry f 3 d).calls = 3 ∧
     (fetchWithRetry f 3 d).result = .ok (some v) ∧
     (fetchWithRetry f 3 d).sleeps = [d, d * 2]) ∧
    ((fetchWithRetry g 3 d).calls = 3 ∧
     (fetchWithRetry g 3 d).result = .error (.original (err 2)) ∧
     (fetchWithRetry g 3 d).sleeps = [d, d * 2]) := by
  constructor
  · unfold fetchWithRetry
    show (fetchRetryGo f 0 (2 + 1) d).calls = 3 ∧ _ ∧ _
    unfold fetchRetryGo
    rw [hf0]
    simp only [ht0, hn0, if_false, Bool.false_eq_true]
    show (let t := fetchRetryGo f 1 (1 + 1) (d * 2); (⟨t.result, t.calls + 1, d :: t.sleeps, t.loggedReset⟩ : RetryTrace α)).calls = 3 ∧ _ ∧ _
    unfold fetchRetryGo
    rw [hf1]
    simp only [ht1, hn1, if_false, Bool.false_eq_true]
    show ((fun t => (⟨t.result, t.calls + 1 + 1, d :: d * 2 :: t.sleeps, t.loggedReset⟩ : RetryTrace α)) (fetchRetryGo f 2 (0 + 1) (d * 2 * 2))).calls = 3 ∧ _ ∧ _
    unfold fetchRetryGo
    rw [hf2]
    exact ⟨rfl, rfl, rfl⟩
  · unfold fetchWithRetry
    show (fetchRetryGo g 0 (2 + 1) d).calls = 3 ∧ _ ∧ _
    unfold fetchRetryGo
    rw [hg 0]
    simp only [htg 0, hng 0, if_false, Bool.false_eq_true]
    show (let t := fetchRetryGo g 1 (1 + 1) (d * 2); (⟨t.result, t.calls + 1, d :: t.sleeps, t.loggedReset⟩ : RetryTrace α)).calls = 3 ∧ _ ∧ _
    unfold fetchRetryGo
    rw [hg 1]
    simp only [htg 1, hng 1, if_false, Bool.false_eq_true]
    show ((fun t => (⟨t.result, t.calls + 1 + 1, d :: d * 2 :: t.sleeps, t.loggedReset⟩ : RetryTrace α)) (fetchRetryGo g 2 (0 + 1) (d * 2 * 2))).calls = 3 ∧ _ ∧ _
    unfold fetchRetryGo
    rw [hg 2]
    simp only [htg 2, hng 2, if_false, Bool.false_eq_true]
    exact ⟨rfl, rfl, rfl⟩

/-- A concrete transient (no response object) thunk error. -/
def transientErr : FetchError := ⟨none⟩

/-- Witness for C2 at concrete thunks: one that fails transiently twice
then returns 42, and one that fails transiently on every attempt. -/
theorem fetchWithRetry_transient_backoff_witness :
    (((fetchWithRetry (fun i => if i < 2 then .error transientErr else .ok 42) 3 1000).calls = 3 ∧
      (fetchWithRetry (fun i => if i < 2 then .error transientErr else .ok 42) 3 1000).result = .ok (some 42) ∧
      (fetchWithRetry (fun i => if i < 2 then .error transientErr else .ok 42) 3 1000).sleeps = [1000, 1000 * 2]) ∧
     ((fetchWithRetry (fun _ => (.error transientErr : Except FetchError Nat)) 3 1000).calls = 3 ∧
      (fetchWithRetry (fun _ => (.error transientErr : Except FetchError Nat)) 3 1000).result = .error (.original transientErr) ∧
      (fetchWithRetry (fun _ => (.error transientErr : Except FetchError Nat)) 3 1000).sleeps = [1000, 1000 * 2])) :=
  fetchWithRetry_transient_backoff
    (fun i => if i < 2 then .error transientErr else .ok 42)
    (fun _ => .error transientErr) 1000 42 transientErr transientErr (fun _ => transientErr)
    rfl rfl rfl rfl rfl rfl rfl (fun _ => rfl) (fun _ => rfl) (fun _ => rfl)

/-- C8 (counterexample): a thunk that rate-limits with a concrete
`x-ratelimit-reset` value makes `fetchWithRetry` raise the fixed-message
rate-limit error; the raised error does not contain the reset value, and
the raised error is identical for two different reset values, so it
cannot carry the quota-reset time. -/
theorem fetchWithRetry_reset_not_carried_counterexample :
    (fetchWithRetry (fun _ => (.error (rlErrReset "1111111111") : Except FetchError Nat)) 3 1000).result
      = .error (.thrown rateLimitMessage) ∧
    (rlErrReset "1111111111").response.bind ErrResponse.ratelimitReset = some "1111111111" ∧
    strIncludes rateLimitMessage "1111111111" = false ∧
    (fetchWithRetry (fun _ => (.error (rlErrReset "1111111111") : Except FetchError Nat)) 3 1000).result
      = (fetchWithRetry (fun _ => (.error (rlErrReset "2222222222") : Except FetchError Nat)) 3 1000).result :=
  ⟨rfl, rfl, by decide, rfl⟩

/-- C8 (amended): when the first invocation fails with a rate-limit
condition whose response carries a truthy `x-ratelimit-reset` header,
`fetchWithRetry` logs that reset value to `console.error` and raises the
fixed-message rate-limit error (which does not carry the reset time),
after exactly one call. -/
theorem fetchWithRetry_rateLimit_reset_logged {α : Type}
    (f : Nat → Except FetchError α) (d : Nat) (r : ErrResponse) (t : String)
    (h0 : f 0 = .error ⟨some r⟩) (hrl : isRateLimitError ⟨some r⟩ = true)
    (hreset : r.ratelimitReset = some t) (hne : t ≠ "") :
    (fetchWithRetry f 3 d).result = .error (.thrown rateLimitMessage) ∧
    (fetchWithRetry f 3 d).loggedReset = some t ∧
    (fetchWithRetry f 3 d).calls = 1 := by
  unfold fetchWithRetry fetchRetryGo
  rw [h0]
  simp [hrl, hreset, hne]

/-- Witness for the amended C8 at a concrete reset value. -/
theorem fetchWithRetry_rateLimit_reset_logged_witness :
    (fetchWithRetry (fun _ => (.error (rlErrReset "1700000000") : Except FetchError Nat)) 3 1000).result
      = .error (.thrown rateLimitMessage) ∧
    (fetchWithRetry (fun _ => (.error (rlErrReset "1700000000") : Except FetchError Nat)) 3 1000).loggedReset
      = some "1700000000" ∧
    (fetchWithRetry (fun _ => (.error (rlErrReset "1700000000") : Except FetchError Nat)) 3 1000).calls = 1 :=
  fetchWithRetry_rateLimit_reset_logged _ 1000 ⟨403, some "API rate limit exceeded for 0.0.0.0.", some "1700000000"⟩ "1700000000"
    rfl (by decide) rfl (by decide)

/-- C3: a `set(k, v)` at time `t` followed by a `get(k)` within the TTL
window returns `v`; and a `get(k)` on an entry older than the TTL
returns a miss while deleting the entry, behaving exactly like a `get`
on a cache from which the entry is already absent. -/
theorem registryCache_set_get_ttl {α : Type} (c : Cache α) (k : String)
    (v : α) (t t' now : Nat) (e : CacheEntry α)
    (hnodup : (c.map Prod.fst).Nodup) :
    (t' - t ≤ TTL → (cacheGet (cacheSet c k v t) k t').1 = some v) ∧
    (cacheFind c k = some e → now - e.timestamp > TTL →
      cacheGet c k now = (none, cacheErase c k) ∧
      cacheGet (cacheErase c k) k now = (none, cacheErase c k)) := by
  refine ⟨?_, ?_⟩
  · intro hfresh
    unfold cacheGet
    rw [cacheFind_cacheSet_self]
    dsimp only
    rw [if_neg (by omega)]
  · intro hfind hexp
    refine ⟨?_, ?_⟩
    · unfold cacheGet
      rw [hfind]
      dsimp only
      rw [if_pos hexp]
    · unfold cacheGet
      rw [cacheFind_cacheErase_self c k hnodup]

/-- Witness for C3 on a one-entry cache: a fresh read returns the value
just set, and an expired read misses, deletes, and agrees with a read on
the emptied cache. -/
theorem registryCache_set_get_ttl_witness :
    (cacheGet (cacheSet ([("k", ⟨7, 0⟩)] : Cache Nat) "k" 5 0) "k" 0).1 = some 5 ∧
    cacheGet ([("k", ⟨7, 0⟩)] : Cache Nat) "k" (TTL + 1)
      = (none, cacheErase [("k", ⟨7, 0⟩)] "k") ∧
    cacheGet (cacheErase ([("k", ⟨7, 0⟩)] : Cache Nat) "k") "k" (TTL + 1)
      = (none, cacheErase [("k", ⟨7, 0⟩)] "k") := by
  have h := registryCache_set_get_ttl ([("k", ⟨7, 0⟩)] : Cache Nat) "k" 5 0 0
    (TTL + 1) ⟨7, 0⟩ (by decide)
  exact ⟨h.1 (by decide), (h.2 rfl (by decide)).1, (h.2 rfl (by decide)).2⟩

/-- C4 (counterexample): an instance whose `registryIndex` memo is set
(reachable by one successful manifest fetch followed by `clearCache()`)
holds no cache entry at all under `registry-index`, yet a call to
`fetchRegistryIndex` performs no remote manifest fetch — refuting
"whenever the cache holds no unexpired entry for `registry-index`, the
resolver performs a remote manifest fetch". -/
theorem fetchRegistryIndex_miss_without_fetch :
    cacheFind (RegistryState.mk [] (some [])).cache "registry-index" = none ∧
    (fetchRegistryIndex ⟨[], some []⟩ 0 mNoContent).fetched = false :=
  ⟨rfl, rfl⟩

/-- C4 (amended): on a call where the `registryIndex` memo is unset, a
cache hit for `registry-index` returns the cached index and performs no
remote manifest fetch, and a cache miss for that key performs a remote
manifest fetch. -/
theorem fetchRegistryIndex_cache_path (st : RegistryState) (now : Nat)
    (m : Nat → Except FetchError ManifestResp)
    (hmemo : st.registryIndex = none) :
    (∀ cv, (cacheGet st.cache "registry-index" now).1 = some cv →
       (fetchRegistryIndex st now m).index = cv.asIndex ∧
       (fetchRegistryIndex st now m).fetched = false) ∧
    ((cacheGet st.cache "registry-index" now).1 = none →
       (fetchRegistryIndex st now m).fetched = true) := by
  unfold fetchRegistryIndex
  rw [hmemo]
  rcases hp : cacheGet st.cache "registry-index" now with ⟨o, cache2⟩
  refine ⟨?_, ?_⟩
  · intro cv hcv
    have ho : o = some cv := hcv
    subst ho
    exact ⟨rfl, rfl⟩
  · intro hnone
    have ho : o = none := hnone
    subst ho
    dsimp only
    cases hr : (fetchWithRetry m 3 1000).result with
    | error e => rfl
    | ok oo =>
      cases oo with
      | none => rfl
      | some mr => cases mr <;> rfl

/-- Witness for the amended C4: a cache hit (memo unset) returns the
cached index with no fetch, and on an empty instance the miss path
fetches. -/
theorem fetchRegistryIndex_cache_path_witness :
    ((fetchRegistryIndex ⟨[("registry-index", ⟨CacheVal.idx [("card", cardMeta)], 0⟩)], none⟩ 0 mNoContent).index
        = [("card", cardMeta)] ∧
     (fetchRegistryIndex ⟨[("registry-index", ⟨CacheVal.idx [("card", cardMeta)], 0⟩)], none⟩ 0 mNoContent).fetched
        = false) ∧
    (fetchRegistryIndex ⟨[], none⟩ 0 mNoContent).fetched = true := by
  have h1 := (fetchRegistryIndex_cache_path
    ⟨[("registry-index", ⟨CacheVal.idx [("card", cardMeta)], 0⟩)], none⟩ 0 mNoContent rfl).1
    (.idx [("card", cardMeta)]) rfl
  have h2 := (fetchRegistryIndex_cache_path ⟨[], none⟩ 0 mNoContent rfl).2 rfl
  exact ⟨h1, h2⟩

/-- C5: when the component cache misses and the resolved registry index
omits `name`, `getComponent` returns the synthesized single-file
contentless metadata and caches it under `component-` + name whenever
`name` is on the static fallback list, and returns `null` when it is
not. -/
theorem getComponent_static_fallback (st : RegistryState) (now : Nat)
    (name : String) (m : Nat → Except FetchError ManifestResp)
    (f : String → Nat → Except FetchError (Option String))
    (hmiss : (cacheGet st.cache ("component-" ++ name) now).1 = none)
    (homit : idxFind (fetchRegistryIndex
        ⟨(cacheGet st.cache ("component-" ++ name) now).2, st.registryIndex⟩ now m).index
        name = none) :
    (SHADCN_SVELTE_COMPONENTS.contains name = true →
      (getComponent st now name m f).result = some (fallbackMetadata name) ∧
      (fallbackMetadata name).files
        = [⟨"$lib/components/ui/" ++ name, none, some "registry:ui", none⟩] ∧
      cacheFind (getComponent st now name m f).state.cache ("component-" ++ name)
        = some ⟨.comp (fallbackMetadata name), now⟩) ∧
    (SHADCN_SVELTE_COMPONENTS.contains name = false →
      (getComponent st now name m f).result = none) := by
  refine ⟨?_, ?_⟩
  · intro hstatic
    obtain ⟨h1, h2⟩ := getComponent_miss_fallback st now name m f hmiss homit hstatic
    exact ⟨h1, rfl, h2⟩
  · intro hstatic
    exact getComponent_miss_none st now name m f hmiss homit hstatic

/-- Witness for C5 on a fresh instance whose manifest fetch yields no
usable index: `getComponent("button")` synthesizes and caches the
fallback metadata. -/
theorem getComponent_static_fallback_witness :
    (getComponent ⟨[], none⟩ 0 "button" mNoContent fNoBody).result
      = some (fallbackMetadata "button") ∧
    (fallbackMetadata "button").files
      = [⟨"$lib/components/ui/" ++ "button", none, some "registry:ui", none⟩] ∧
    cacheFind (getComponent ⟨[], none⟩ 0 "button" mNoContent fNoBody).state.cache
      ("component-" ++ "button") = some ⟨.comp (fallbackMetadata "button"), 0⟩ := by
  have h := (getComponent_static_fallback ⟨[], none⟩ 0 "button" mNoContent fNoBody
    rfl rfl).1 (by decide)
  exact h

/-- C9: after any `fetchRegistryIndex` call that leaves the memo field
set — in particular after one successful manifest fetch, including one
that parses to zero entries — every further sequence of
`fetchRegistryIndex` / `getComponent` / `getAvailableComponents` /
`clearCache` calls on the instance performs zero manifest fetches, and
the memo survives (also across `clearCache`). -/
theorem registryIndex_memo_never_refetched (st : RegistryState) (now : Nat)
    (m : Nat → Except FetchError ManifestResp) (ops : List RegOp)
    (i : RegistryIndex)
    (hset : (fetchRegistryIndex st now m).state.registryIndex = some i) :
    manifestFetchCount (fetchRegistryIndex st now m).state ops = 0 ∧
    (runState (fetchRegistryIndex st now m).state ops).registryIndex = some i :=
  manifest_fetch_free ops _ i hset

/-- Witness for C9: a successful zero-entry manifest fetch followed by a
`clearCache` and one call of each resolver performs no further manifest
fetch and keeps the memo. -/
theorem registryIndex_memo_never_refetched_witness :
    manifestFetchCount (fetchRegistryIndex ⟨[], none⟩ 0 mEmptyManifest).state
      [.clear, .fetchIndex 1 mNoContent, .getAvail 2 mNoContent,
       .getComp "button" 3 mNoContent fNoBody] = 0 ∧
    (runState (fetchRegistryIndex ⟨[], none⟩ 0 mEmptyManifest).state
      [.clear, .fetchIndex 1 mNoContent, .getAvail 2 mNoContent,
       .getComp "button" 3 mNoContent fNoBody]).registryIndex = some [] :=
  registryIndex_memo_never_refetched ⟨[], none⟩ 0 mEmptyManifest _ [] rfl

/-- C10 (counterexample): with a resolved index that is non-empty but
contains neither `Button` nor `button` (and `Button` uppercase, `button`
on the static list, `Button` on neither source), `componentExists`
returns `false`, contradicting the claim that it returns `true`;
`getComponent` returns `null` as the claim says. -/
theorem componentExists_not_always_true :
    SHADCN_SVELTE_COMPONENTS.contains (jsToLower "Button") = true ∧
    SHADCN_SVELTE_COMPONENTS.contains "Button" = false ∧
    idxFind (fetchRegistryIndex ⟨[], some [("card", cardMeta)]⟩ 0 mNoContent).index "Button" = none ∧
    (componentExists ⟨[], some [("card", cardMeta)]⟩ 0 "Button" mNoContent).result = false ∧
    (getComponent ⟨[], some [("card", cardMeta)]⟩ 0 "Button" mNoContent fNoBody).result = none :=
  ⟨by decide, by decide, rfl, rfl, rfl⟩

/-- C10 (amended): `componentExists` lowercases its argument while
`getComponent` matches case-sensitively: whenever the available
component list resolves to one containing the lowercased name — as it
does when the static fallback list is in effect — `componentExists`
returns `true`, while `getComponent` returns `null` for a name that the
component cache, the resolved index and the static list all miss. -/
theorem componentExists_lowercase_asymmetry (st : RegistryState) (now : Nat)
    (name : String) (m : Nat → Except FetchError ManifestResp)
    (f : String → Nat → Except FetchError (Option String))
    (havail : (getAvailableComponents st now m).components.contains (jsToLower name) = true)
    (hmiss : (cacheGet st.cache ("component-" ++ name) now).1 = none)
    (homit : idxFind (fetchRegistryIndex
        ⟨(cacheGet st.cache ("component-" ++ name) now).2, st.registryIndex⟩ now m).index
        name = none)
    (hstatic : SHADCN_SVELTE_COMPONENTS.contains name = false) :
    (componentExists st now name m).result = true ∧
    (getComponent st now name m f).result = none := by
  refine ⟨?_, ?_⟩
  · show (getAvailableComponents st now m).components.contains (jsToLower name) = true
    exact havail
  · exact getComponent_miss_none st now name m f hmiss homit hstatic

/-- Witness for the amended C10 on a fresh instance resolving to the
static fallback list with the name `Button`. -/
theorem componentExists_lowercase_asymmetry_witness :
    (componentExists ⟨[], none⟩ 0 "Button" mNoContent).result = true ∧
    (getComponent ⟨[], none⟩ 0 "Button" mNoContent fNoBody).result = none :=
  componentExists_lowercase_asymmetry ⟨[], none⟩ 0 "Button" mNoContent fNoBody
    rfl rfl rfl (by decide)

/-- C6: when the top-level `buildDirectoryTree` call fails, the fallback
wrapper returns the fixed skeleton tree exactly when the failure is a
rate-limit condition (truthy message mentioning `rate limit`), and
propagates the failure unchanged otherwise. -/
theorem buildTree_rateLimit_fallback (oracle : String → Except JsErr GhResp)
    (fuel : Nat) (p : String) (e : JsErr)
    (herr : buildDirectoryTree oracle fuel p = .error e) :
    ((e.message ≠ "" ∧ strIncludes e.message "rate limit" = true) →
       buildDirectoryTreeWithFallback oracle fuel p = .ok getBasicSvelteStructure) ∧
    (¬(e.message ≠ "" ∧ strIncludes e.message "rate limit" = true) →
       buildDirectoryTreeWithFallback oracle fuel p = .error e) := by
  unfold buildDirectoryTreeWithFallback
  rw [herr]
  refine ⟨?_, ?_⟩
  · rintro ⟨h1, h2⟩
    have hb : (e.message == "") = false := beq_eq_false_iff_ne.mpr h1
    simp [hb, h2]
  · intro h
    by_cases h1 : e.message = ""
    · have hb : (e.message == "") = true := beq_iff_eq.mpr h1
      simp [hb]
    · have h2 : strIncludes e.message "rate limit" = false := by
        cases hx : strIncludes e.message "rate limit" with
        | true => exact absurd ⟨h1, hx⟩ h
        | false => rfl
      simp [h2]

/-- A concrete rate-limited HTTP error as axios would deliver it to the
catch block of the tree builder. -/
def rlHttpErr : JsErr :=
  ⟨"Request failed with status code 403",
   some ⟨403, some "API rate limit exceeded for 0.0.0.0."⟩⟩

/-- An oracle whose every listing request fails with a rate-limited HTTP
error. -/
def oracleRL : String → Except JsErr GhResp := fun _ => .error rlHttpErr

/-- Witness for C6: a top-level rate-limited failure yields the skeleton
tree. -/
theorem buildTree_rateLimit_fallback_witness :
    buildDirectoryTreeWithFallback oracleRL 1 "packages" = .ok getBasicSvelteStructure :=
  (buildTree_rateLimit_fallback oracleRL 1 "packages"
      (classifyCatch "packages" rlHttpErr) rfl).1 ⟨by decide, by decide⟩

/-- C7: in a listing with a file entry and a subdirectory entry whose
recursive fetch fails, the parent directory node still contains both
children: the file node untouched and the subdirectory node carrying
`error: 'Failed to fetch contents'`. -/
theorem buildTree_branch_isolation (oracle : String → Except JsErr GhResp)
    (fuel : Nat) (p : String) (fi di : GhItem) (e : JsErr)
    (hlist : oracle p = .ok (.listing [fi, di]))
    (hfi : fi.type = "file") (hdi : di.type = "dir")
    (hdepth : jsSplitLen p '/' < 8)
    (hnames : fi.name ≠ di.name)
    (hsub : buildDirectoryTree oracle fuel di.path = .error e) :
    buildDirectoryTree oracle (fuel + 1) p =
      .ok (.dir p
        (some [(fi.name, .file fi.path fi.name fi.downloadUrl fi.sha),
               (di.name, .dir di.path none (some "Failed to fetch contents") none none none)])
        none none none none) := by
  simp only [buildDirectoryTree, hlist]
  simp only [buildChildren, hfi, hdi, hdepth, if_true, childInsert, hsub, hnames]
  simp

/-- The file item of the C7 witness listing. -/
def fileItem : GhItem :=
  ⟨"file", "README.md", "packages/README.md",
   some "https://raw.example/README.md", "abc123"⟩

/-- The directory item of the C7 witness listing. -/
def dirItem : GhItem := ⟨"dir", "cli", "packages/cli", none, "def456"⟩

/-- An oracle that lists `packages` as one file plus one subdirectory
and fails on every other path. -/
def isoOracle : String → Except JsErr GhResp := fun q =>
  if q = "packages" then .ok (.listing [fileItem, dirItem])
  else .error ⟨"boom", none⟩

/-- Witness for C7 at the concrete two-entry listing whose subdirectory
fetch fails. -/
theorem buildTree_branch_isolation_witness :
    buildDirectoryTree isoOracle 2 "packages" =
      .ok (.dir "packages"
        (some [("README.md",
                .file "packages/README.md" "README.md"
                  (some "https://raw.example/README.md") "abc123"),
               ("cli", .dir "packages/cli" none (some "Failed to fetch contents") none none none)])
        none none none none) :=
  buildTree_branch_isolation isoOracle 1 "packages" fileItem dirItem
    ⟨"boom", none⟩ rfl rfl rfl (by decide) (by decide) rfl

end Shadcn
